import Mathlib

/-!
Shallow embedding of `runcirrus` (src/runcirrus/runcirrus.py): version
defaulting, versions-root discovery, version resolution, backend selection,
job-script rendering and scheduler dispatch, together with proofs of the
spec's claims about them.

Paths are modelled as lists of components, root-first; the root directory is
the empty list. Values coming from the operating system (CPU count, presence
of scheduler binaries, environment variables, filesystem existence, symlink
resolution, `shlex.split`) are explicit parameters.
-/

namespace Runcirrus

/-! ### default_version (runcirrus.py lines 88-97)

The regex is `^run(cirrus|pflotran)(\d+(?:\.\d+)*)?`, applied with `re.match`
(anchored at the start, not at the end). Since the digit class and the dot
are disjoint, the greedy match of `\d+(?:\.\d+)*` is computed by the
deterministic maximal-munch parser below. -/

/-- Strip a literal from the front of a character list; `none` if it is not
there. Implements matching the fixed parts `run`, `cirrus`, `pflotran` of the
regex. -/
def stripLit : List Char → List Char → Option (List Char)
  | [], s => some s
  | _ :: _, [] => none
  | c :: cs, d :: ds => if c = d then stripLit cs ds else none

/-- Greedy continuation of `\d+(?:\.\d+)*` after its first digit: consume the
rest of the current digit run, then `.`-plus-nonempty-digit-run groups as long
as possible. Since the digit class and the dot are disjoint, the greedy
regex match and this maximal-munch scan agree. -/
def verScan : List Char → List Char
  | [] => []
  | c :: rest =>
    if c.isDigit then c :: verScan rest
    else if c = '.' then
      match rest with
      | [] => []
      | d :: rest2 => if d.isDigit then '.' :: d :: verScan rest2 else []
    else []

/-- Greedy match of group 2, `(\d+(?:\.\d+)*)?`: `none` when the text does not
start with a digit (the optional group matched empty), otherwise the captured
text. -/
def versionCapture : List Char → Option (List Char)
  | [] => none
  | c :: rest => if c.isDigit then some (c :: verScan rest) else none

/-- `default_version` (runcirrus.py lines 88-97): determine the default
version from the script name. -/
def default_version (script_name : String) : String :=
  match stripLit "run".toList script_name.toList with
  | none => "stable"
  | some rest =>
    match stripLit "cirrus".toList rest with
    | some rest2 =>
      match versionCapture rest2 with
      | some v => String.mk v
      | none => "stable"
    | none =>
      match stripLit "pflotran".toList rest with
      | some rest2 =>
        match versionCapture rest2 with
        | some v => String.mk v
        | none => "1.8"
      | none => "stable"

/-- Spelling of a `digits-with-dots` token from its digit runs: the first
run, then each further run preceded by a dot. `["1","8","12"]` spells
`1.8.12`. -/
def dottedRuns : List (List Char) → List Char
  | [] => []
  | r :: rs => r ++ (rs.map (fun q => '.' :: q)).flatten

/-- Whether a trailing text cannot extend a greedy `\d+(?:\.\d+)*` match
that ends right before it: it starts neither with a digit nor with a dot
followed by a digit. -/
def noCapExtend : List Char → Bool
  | [] => true
  | c :: rest =>
    if c.isDigit then false
    else if c = '.' then
      match rest with
      | [] => true
      | d :: _ => !d.isDigit
    else true

/-- Whether a text does not start with a digit, so the optional digits group
of the regex matches empty on it. -/
def headNotDigit : List Char → Bool
  | [] => true
  | c :: _ => !c.isDigit

/-! ### Legacy executable name (runcirrus.py lines 359-361)

`version.split(".") < ["1", "9"]` is Python's lexicographic comparison of
lists of strings, each string compared lexicographically by code point. -/

/-- Python `<` on strings: lexicographic by Unicode code point. -/
def pyStrLt : List Char → List Char → Bool
  | [], [] => false
  | [], _ :: _ => true
  | _ :: _, [] => false
  | a :: as, b :: bs =>
    if a.toNat < b.toNat then true
    else if b.toNat < a.toNat then false
    else pyStrLt as bs

/-- Python `<` on lists of strings: elementwise, the first inequality
decides; a strict initial segment is smaller. -/
def pyListLt : List (List Char) → List (List Char) → Bool
  | [], [] => false
  | [], _ :: _ => true
  | _ :: _, [] => false
  | a :: as, b :: bs =>
    if pyStrLt a b then true
    else if pyStrLt b a then false
    else pyListLt as bs

/-- Python `str.split(".")`: split on every dot; `"".split(".") = [""]`. -/
def splitDotAux : List Char → List Char → List (List Char)
  | [], acc => [acc.reverse]
  | c :: cs, acc =>
    if c = '.' then acc.reverse :: splitDotAux cs []
    else splitDotAux cs (c :: acc)

def splitDot (cs : List Char) : List (List Char) :=
  splitDotAux cs []

/-- The executable-name choice of runcirrus.py lines 359-361: `"pflotran"`
when the version string is truthy (nonempty) and its dot-split sorts below
`["1", "9"]` under Python list comparison, else `"cirrus"`. -/
def prognameOf (version : String) : String :=
  if version.toList ≠ [] ∧
      pyListLt (splitDot version.toList) ["1".toList, "9".toList] = true then
    "pflotran"
  else "cirrus"

/-! ### Paths

A path is its list of components, root-first; the filesystem root is `[]`.
`Path.name` of the root is `""` (as in pathlib), and `Path.parent` of the
root is the root itself. -/

abbrev Dir := List String

/-- `Path.name`: the final component, `""` for the root. -/
def pathName (p : Dir) : String := p.getLastD ""

/-- `Path.parent`: drop the final component; the root is its own parent. -/
def pathParent (p : Dir) : Dir := p.dropLast

/-! ### get_versions_path (runcirrus.py lines 112-133) -/

/-- The upward walk of `get_versions_path` (lines 124-131): while the current
directory is not named `"versions"`, step to the parent; raise (here: `none`)
when the parent of the parent equals the parent, i.e. the root was hit. -/
def walkVersions (p : Dir) : Option Dir :=
  if pathName p = "versions" then some p
  else if pathParent p = [] then none
  else walkVersions (pathParent p)
termination_by p.length
decreasing_by
  rename_i hne
  cases p with
  | nil => simp [pathParent] at hne
  | cons a l =>
    simp only [pathParent, List.length_dropLast, List.length_cons]
    omega

/-- The chain of directories the walk inspects, the start first, each
followed by its parent, stopping above directories of one component (the
walk raises at the root without inspecting it). -/
def ancestors : Dir → List Dir
  | [] => []
  | a :: l => (a :: l) :: ancestors (a :: l).dropLast
termination_by p => p.length
decreasing_by
  simp only [List.length_dropLast_cons, List.length_cons]
  omega

/-- `get_versions_path` (lines 112-133). `envOverride` is
`os.environ.get("CIRRUS_VERSIONS_PATH")`; `expanduser` is the OS-dependent
user-directory expansion, applied to the override only; `scriptDirRaw` is
`Path(os.path.dirname(__file__))` and `scriptDirResolved` its
symlink-following resolution. The error (a raised `RuntimeError`) carries
the raw, unresolved script directory. No filesystem-existence check occurs
anywhere in this function. -/
def get_versions_path (envOverride : Option String)
    (expanduser : String → Dir)
    (scriptDirRaw : Dir) (scriptDirResolved : Dir) : Except Dir Dir :=
  match envOverride with
  | some path => .ok (expanduser path)
  | none =>
    match walkVersions scriptDirResolved with
    | some found => .ok found
    | none => .error scriptDirRaw

/-! ### Version-root search (runcirrus.py lines 352-357)

`for versions_path in get_versions_path(), Path("/prog/cirrus/versions"):`
— try `versions_path / version` resolved, then the fallback, and keep the
first whose resolution exists on disk; otherwise `sys.exit`. -/

/-- The fixed fallback root `/prog/cirrus/versions`. -/
def fallbackRoot : Dir := ["prog", "cirrus", "versions"]

/-- The candidate-root loop of lines 352-357: `resolve` is `Path.resolve`
(symlink following), `fs` tells whether a directory exists on disk.
Returns the resolved `root/version` directory, or `none` for the
`sys.exit` branch. -/
def findRootdir (resolve : Dir → Dir) (fs : Dir → Bool)
    (versionsPath : Dir) (version : String) : Option Dir :=
  let c1 := resolve (versionsPath ++ [version])
  let c2 := resolve (fallbackRoot ++ [version])
  if fs c1 then some c1
  else if fs c2 then some c2
  else none

/-! ### pathlib `Path.stem`

`stem = name[:i]` where `i = name.rfind(".")`, applied only when
`0 < i < len(name) - 1`; otherwise the whole name. -/

/-- Index of the last `'.'` in a character list, if any (`str.rfind`). -/
def rfindDot (cs : List Char) : Option Nat :=
  match cs.reverse.findIdx? (· = '.') with
  | none => none
  | some j => some (cs.length - 1 - j)

/-- pathlib's `Path.stem` on a file name. -/
def pyStem (name : String) : String :=
  let cs := name.toList
  match rfindDot cs with
  | some i => if 0 < i ∧ i < cs.length - 1 then String.mk (cs.take i) else name
  | none => name

/-- `str()` of an absolute pathlib path given its components. -/
def pathStr (p : Dir) : String :=
  "/" ++ String.intercalate "/" p

/-! ### The SCRIPT template (runcirrus.py lines 59-81) and its rendering
(`SCRIPT.format(...)` at lines 370-381). -/

structure ScriptInputs where
  root : String
  input_file : String
  case : String
  progname : String
  mpi_args : String
  cirrus_args : String
  num_tasks : String
  outdir : String
  telemetry : String
deriving DecidableEq

/-- `SCRIPT.format(...)`: substitute the placeholders into the template.
The template text is reproduced verbatim; the `workdir` keyword passed at
line 372 has no placeholder in the template and is dropped by `format`. -/
def renderScript (i : ScriptInputs) : String :=
  "#!/usr/bin/bash\nset -e -o pipefail\n\ncd \"" ++ i.outdir ++ "\"\n\n" ++
  "arg_mpi_transport=\narg_machinefile=\n\n" ++
  "if [ -n \"$LSB_MCPU_HOSTS\" ]; then  # LSF\n" ++
  "    arg_machinefile=\"-machinefile $LSB_DJOB_RANKFILE\"\n" ++
  "elif [ -n \"$PBS_NODEFILE\" ]; then  # PBS\n" ++
  "    arg_machinefile=\"-machinefile $PBS_NODEFILE\"\nfi\n\n" ++
  "# Check for possibly non-working RDMA transport\n" ++
  "if lsmod | egrep -qw bnxt_re\nthen\n" ++
  "    arg_mpi_transport=\"-mca btl vader,self,tcp -mca pml ^ucx\"\nfi\n\n" ++
  "(" ++ i.root ++ "/bin/mpirun $arg_mpi_transport $arg_machinefile " ++
  i.num_tasks ++ " " ++ i.mpi_args ++ " " ++ i.telemetry ++ " " ++
  i.root ++ "/bin/" ++ i.progname ++ " " ++ i.cirrus_args ++ " -" ++
  i.progname ++ "in \"" ++ i.input_file ++ "\" -output_prefix \"" ++
  i.outdir ++ "/" ++ i.case ++ "\" | tee \"" ++ i.outdir ++ "/" ++ i.case ++
  ".LOG\") 3>&1 1>&2 2>&3 | tee \"" ++ i.outdir ++ "/" ++ i.case ++ ".ERR\"\n"

/-! ### Arguments (runcirrus.py lines 154-171) and the environment -/

/-- The `Arguments` dataclass. `num_tasks_per_machine` and `num_machines`
come from argparse with `type=int` (so possibly negative); optional string
fields are `None` when not given. `exclusive` is filled by argparse with the
option's string value (the `-e` option of line 226 declares no `action` or
`type`), so its runtime value is an optional string despite the `bool | None`
annotation. `print_versions` is omitted: its argparse action exits during
parsing and is never seen by `main`. -/
structure Arguments where
  input : String
  queue : String
  num_tasks_per_machine : Option Int
  num_machines : Int
  version : Option String
  print_job_script : Bool
  mpi_args : Option String
  cirrus_args : Option String
  output_directory : Option String
  interactive : Bool
  telemetry : String
  bsub_args : Option String
  qsub_args : Option String
  exclusive : Option String
deriving DecidableEq

/-- Python truthiness of an optional string (`None` and `""` are falsy). -/
def pyTruthyStr : Option String → Bool
  | none => false
  | some s => s ≠ ""

/-- `os.cpu_count() or 1`: `None` and `0` fall back to `1`. -/
def cpuCountOr1 : Option Nat → Nat
  | none => 1
  | some 0 => 1
  | some n => n

/-- `ensure_local_on_hpc` (lines 100-109). `onHpc` is
`any(x in os.environ for x in ("LSB_DJOB_RANKFILE", "PBS_NODEFILE"))`.
`args.num_tasks_per_machine or 1` maps both `None` and `0` to `1`. -/
def ensure_local_on_hpc (onHpc : Bool) (a : Arguments) : Arguments :=
  if a.queue ≠ "local" ∧ onHpc then
    { a with
      queue := "local"
      num_tasks_per_machine :=
        match a.num_tasks_per_machine with
        | none => some 1
        | some 0 => some 1
        | some n => some n }
  else a

/-- Ambient facts `main` reads from the operating system: environment
variables, scheduler-binary probes, the CPU count, path expansion and
symlink resolution, filesystem existence, the script's own location, and
`shlex.split` for the pass-through argument strings. -/
structure Env where
  lsb_djob_rankfile : Bool
  pbs_nodefile : Bool
  have_bsub : Bool
  have_qsub : Bool
  cpu_count : Option Nat
  cirrus_versions_path : Option String
  expanduser : String → Dir
  resolve : Dir → Dir
  fs : Dir → Bool
  scriptDirRaw : Dir
  scriptDirResolved : Dir
  shlex : String → List String
  argv0 : String

/-- The normalization steps of `main`, lines 332-346: interactive forces the
local queue, then `ensure_local_on_hpc`, then the tasks-per-machine default
(fatal on a non-local queue), then the multi-machine/local-queue check. -/
def normalize (a0 : Arguments) (env : Env) : Except String Arguments :=
  let a1 := if a0.interactive then { a0 with queue := "local" } else a0
  let a2 := ensure_local_on_hpc (env.lsb_djob_rankfile || env.pbs_nodefile) a1
  (match a2.num_tasks_per_machine with
   | none =>
     if a2.queue ≠ "local" then
       Except.error
         "Must specify -n/--num-tasks-per-machine when running on a non-local queue"
     else
       Except.ok
         { a2 with num_tasks_per_machine := some (cpuCountOr1 env.cpu_count : Int) }
   | some _ => Except.ok a2).bind fun a3 =>
    if a3.num_machines > 1 ∧ a3.queue = "local" then
      Except.error
        "Must specify -q/--queue when attempting to run on multiple machines with -m/--num-machines"
    else Except.ok a3

/-- What `main` hands to the operating system at its end: a `sys.exit` with a
message, an uncaught `RuntimeError` from the versions walk, the printed job
script, or `os.execvp` of a program with its argument list, possibly after
writing the script file (`run_bsub`/`run_qsub` lines 265-266 and 292-293). -/
inductive Outcome where
  | errorExit (msg : String)
  | uncaught (startPath : Dir)
  | printed (script : String)
  | exec (written : Option (Dir × String)) (program : String) (argv : List String)
deriving DecidableEq

/-- The external program an `exec` outcome replaces the process with. -/
def Outcome.program : Outcome → Option String
  | .exec _ p _ => some p
  | _ => none

/-- Whether the outcome submits to a batch scheduler (`bsub` or `qsub`). -/
def Outcome.isSchedulerSubmission : Outcome → Bool
  | .exec _ p _ => p == "bsub" || p == "qsub"
  | _ => false

/-- Whether the outcome replaces the process image at all. -/
def Outcome.isExec : Outcome → Bool
  | .exec _ _ _ => true
  | _ => false

/-- `run_bsub` (lines 256-284). `num_tasks_per_machine` is always set when
this runs (guaranteed by `normalize`); `getD 0` is never taken. -/
def run_bsub (shlex : String → List String) (script : String) (a : Arguments)
    (input_file : Dir) : Outcome :=
  let ntpm := a.num_tasks_per_machine.getD 0
  let num_tasks := a.num_machines * ntpm
  let resources := ["select[rhel >= 8]", "same[type:model]"] ++
    ["span[ptile=" ++ toString ntpm ++ "]"]
  let resource_string := String.intercalate " " resources
  let user_args := shlex (a.bsub_args.getD "")
  let stem := pyStem (pathName input_file)
  let script_path := pathParent input_file ++ [stem ++ ".run"]
  Outcome.exec (some (script_path, script)) "bsub"
    (["-q", a.queue,
      "-n", toString num_tasks,
      "-o", pathStr (pathParent input_file) ++ "/" ++ stem ++ "_bsub.LOG",
      "-J", "Cirrus_" ++ pathName input_file,
      "-R", resource_string] ++
     user_args ++ ["--", "bash", pathStr script_path])

/-- `run_qsub` (lines 287-314). -/
def run_qsub (shlex : String → List String) (script : String) (a : Arguments)
    (input_file : Dir) : Outcome :=
  let ntpm := a.num_tasks_per_machine.getD 0
  let place := if pyTruthyStr a.exclusive then "scatter:excl" else "scatter:shared"
  let user_args := shlex (a.qsub_args.getD "")
  let stem := pyStem (pathName input_file)
  let script_path := pathParent input_file ++ [stem ++ ".run"]
  Outcome.exec (some (script_path, script)) "qsub"
    (["-q", a.queue,
      "-l", "select=" ++ toString a.num_machines ++ ":ncpus=" ++ toString ntpm
        ++ ":mpiprocs=" ++ toString ntpm,
      "-l", "place=" ++ place,
      "-j", "oe",
      "-o", pathStr (pathParent input_file) ++ "/" ++ stem ++ "_qsub.LOG",
      "-N", "Cirrus_" ++ pathName input_file] ++
     user_args ++ ["--", "/usr/bin/bash", "-c", script])

/-- The print/dispatch chain of `main`, lines 399-408. -/
def dispatch (env : Env) (script : String) (a : Arguments) (input_file : Dir) :
    Outcome :=
  if a.print_job_script then .printed script
  else if a.queue = "local" then .exec none "bash" ["-c", script]
  else if env.have_bsub then run_bsub env.shlex script a input_file
  else if env.have_qsub then run_qsub env.shlex script a input_file
  else .errorExit "No supported job scheduler detected on this machine"

/-- `main` (lines 317-408), from the input-existence check to the terminal
action. -/
def mainOutcome (a0 : Arguments) (env : Env) : Outcome :=
  let input_file := env.resolve (env.expanduser a0.input)
  if env.fs input_file = false then
    .errorExit ("Cirrus input file '" ++ pathStr input_file ++ "' does not exit!")
  else
    match normalize a0 env with
    | .error msg => .errorExit msg
    | .ok a =>
      let version :=
        if pyTruthyStr a.version then (a.version.getD "")
        else default_version env.argv0
      match get_versions_path env.cirrus_versions_path env.expanduser
          env.scriptDirRaw env.scriptDirResolved with
      | .error start => .uncaught start
      | .ok versionsPath =>
        match findRootdir env.resolve env.fs versionsPath version with
        | none =>
          .errorExit ("Cirrus version '" ++ version ++ "' is not installed in "
            ++ pathStr fallbackRoot)
        | some rootdir =>
          let progname := prognameOf version
          let num_tasks := a.num_machines * a.num_tasks_per_machine.getD 0
          let outdir :=
            if pyTruthyStr a.output_directory then
              env.expanduser (a.output_directory.getD "")
            else pathParent (env.expanduser a0.input)
          let script := renderScript
            { root := pathStr rootdir
              input_file := pathStr input_file
              case := pyStem (pathName input_file)
              progname := progname
              mpi_args := a.mpi_args.getD ""
              cirrus_args := a.cirrus_args.getD ""
              num_tasks := "-np " ++ toString num_tasks
              outdir := pathStr (env.resolve outdir)
              telemetry := a.telemetry }
          dispatch env script a input_file

/-! ### Concrete sample inputs, used to exercise the theorems on closed
instances. -/

def sampleArgs : Arguments where
  input := "spe1.in"
  queue := "local"
  num_tasks_per_machine := some 1
  num_machines := 1
  version := none
  print_job_script := false
  mpi_args := none
  cirrus_args := none
  output_directory := none
  interactive := false
  telemetry := ""
  bsub_args := none
  qsub_args := none
  exclusive := none

def sampleEnv : Env where
  lsb_djob_rankfile := false
  pbs_nodefile := false
  have_bsub := true
  have_qsub := false
  cpu_count := some 4
  cirrus_versions_path := some "/prog/cirrus/versions"
  expanduser := fun _ => ["work", "spe1.in"]
  resolve := id
  fs := fun _ => true
  scriptDirRaw := ["opt", "cirrus", "bin"]
  scriptDirResolved := ["opt", "cirrus", "versions", "bin"]
  shlex := fun _ => []
  argv0 := "runcirrus"

/-! ## Helper lemmas -/

theorem ensure_local_print (b : Bool) (a : Arguments) :
    (ensure_local_on_hpc b a).print_job_script = a.print_job_script := by
  unfold ensure_local_on_hpc
  split <;> rfl

theorem cpuCountOr1_pos (c : Option Nat) : 1 ≤ cpuCountOr1 c := by
  cases c with
  | none => exact Nat.le_refl 1
  | some n =>
    cases n with
    | zero => exact Nat.le_refl 1
    | succ m => exact Nat.succ_le_succ (Nat.zero_le m)

theorem ensure_local_queue (a : Arguments) :
    (ensure_local_on_hpc true a).queue = "local" := by
  unfold ensure_local_on_hpc
  by_cases h : a.queue = "local"
  · rw [if_neg (by simp [h])]
    exact h
  · rw [if_pos ⟨h, rfl⟩]

theorem ensure_local_tasks (a : Arguments) (h : a.queue ≠ "local")
    (ht : a.num_tasks_per_machine = none) :
    (ensure_local_on_hpc true a).num_tasks_per_machine = some 1 := by
  unfold ensure_local_on_hpc
  rw [if_pos ⟨h, rfl⟩]
  simp [ht]

/-- `normalize` leaves every field except `num_tasks_per_machine` unchanged
from the post-override arguments, and sets `num_tasks_per_machine` to the
CPU-count default exactly when it was unset there. -/
theorem normalize_ok_inv (a0 : Arguments) (env : Env) (a2 a' : Arguments)
    (h2 : ensure_local_on_hpc (env.lsb_djob_rankfile || env.pbs_nodefile)
            (if a0.interactive then { a0 with queue := "local" } else a0) = a2)
    (h : normalize a0 env = .ok a') :
    a'.queue = a2.queue ∧
    a'.print_job_script = a2.print_job_script ∧
    a'.num_machines = a2.num_machines ∧
    a'.version = a2.version ∧
    (a2.num_tasks_per_machine = none →
      a'.num_tasks_per_machine = some (cpuCountOr1 env.cpu_count : Int)) ∧
    (∀ n, a2.num_tasks_per_machine = some n →
      a'.num_tasks_per_machine = some n) := by
  unfold normalize at h
  simp only [] at h
  rw [h2] at h
  cases hm : a2.num_tasks_per_machine with
  | none =>
    rw [hm] at h
    by_cases hq : a2.queue ≠ "local"
    · rw [if_pos hq] at h
      exact absurd h (by simp [Except.bind])
    · rw [if_neg hq] at h
      simp only [Except.bind] at h
      split at h
      · exact absurd h (by simp)
      · cases h
        simp [hm]
  | some n =>
    rw [hm] at h
    simp only [Except.bind] at h
    split at h
    · exact absurd h (by simp)
    · cases h
      simp [hm]


theorem stripLit_append (pre : List Char) : ∀ s, stripLit pre (pre ++ s) = some s := by
  induction pre with
  | nil => intro s; rfl
  | cons c cs ih => intro s; simp [stripLit, ih]

theorem verScan_digits (r : List Char) (hr : ∀ c ∈ r, c.isDigit = true)
    (rest : List Char) : verScan (r ++ rest) = r ++ verScan rest := by
  induction r with
  | nil => rfl
  | cons c cs ih =>
    have hc : c.isDigit = true := hr c (by simp)
    have ih' := ih (fun x hx => hr x (by simp [hx]))
    rw [List.cons_append, verScan.eq_def]
    simp [hc, ih']

theorem verScan_stop : ∀ tail, noCapExtend tail = true → verScan tail = []
  | [], _ => rfl
  | c :: rest, h => by
    rw [noCapExtend.eq_def] at h
    simp only [] at h
    have h2 := h
    by_cases hc : c.isDigit
    · rw [if_pos hc] at h2
      exact absurd h2 (by simp)
    · rw [if_neg hc] at h2
      by_cases hd : c = '.'
      · rw [if_pos hd] at h2
        subst hd
        cases rest with
        | nil => rfl
        | cons d r2 =>
          have h3 : (!d.isDigit) = true := h2
          have hdd : d.isDigit = false := by simpa using h3
          rw [verScan.eq_def]
          simp [hc, hdd]
      · rw [if_neg hd] at h2
        rw [verScan.eq_def]
        simp [hc, hd]

theorem verScan_dotGroups : ∀ (rs : List (List Char)) (tail : List Char),
    (∀ r ∈ rs, r ≠ [] ∧ ∀ c ∈ r, c.isDigit = true) →
    noCapExtend tail = true →
    verScan ((rs.map (fun q => '.' :: q)).flatten ++ tail)
      = (rs.map (fun q => '.' :: q)).flatten
  | [], tail, _, ht => by simp [verScan_stop tail ht]
  | r :: rs, tail, hr, ht => by
    obtain ⟨hne, hdig⟩ := hr r (by simp)
    cases r with
    | nil => exact absurd rfl hne
    | cons d ds =>
      have hd : d.isDigit = true := hdig d (by simp)
      have hds : ∀ c ∈ ds, c.isDigit = true := fun c hc => hdig c (by simp [hc])
      have ih := verScan_dotGroups rs tail (fun x hx => hr x (by simp [hx])) ht
      simp only [List.map_cons, List.flatten_cons, List.cons_append,
        List.append_assoc]
      have h1 : verScan ('.' :: d :: (ds ++
            ((rs.map (fun q => '.' :: q)).flatten ++ tail)))
          = '.' :: d :: verScan (ds ++
            ((rs.map (fun q => '.' :: q)).flatten ++ tail)) := by
        rw [verScan.eq_def]
        simp [hd]
      rw [h1, verScan_digits ds hds, ih]

theorem versionCapture_dotted (runs : List (List Char)) (tail : List Char)
    (hne : runs ≠ [])
    (hr : ∀ r ∈ runs, r ≠ [] ∧ ∀ c ∈ r, c.isDigit = true)
    (ht : noCapExtend tail = true) :
    versionCapture (dottedRuns runs ++ tail) = some (dottedRuns runs) := by
  cases runs with
  | nil => exact absurd rfl hne
  | cons r rs =>
    obtain ⟨hrne, hdig⟩ := hr r (by simp)
    cases r with
    | nil => exact absurd rfl hrne
    | cons d ds =>
      have hd : d.isDigit = true := hdig d (by simp)
      have hds : ∀ c ∈ ds, c.isDigit = true := fun c hc => hdig c (by simp [hc])
      simp only [dottedRuns, List.cons_append, List.append_assoc]
      simp only [versionCapture, hd, if_true]
      rw [verScan_digits ds hds,
        verScan_dotGroups rs tail (fun x hx => hr x (by simp [hx])) ht]

theorem versionCapture_nodigit : ∀ tail, headNotDigit tail = true →
    versionCapture tail = none
  | [], _ => rfl
  | c :: rest, h => by
    simp only [headNotDigit, Bool.not_eq_true'] at h
    simp [versionCapture, h]

theorem stripLit_cirrus_pflotran (X : List Char) :
    stripLit "cirrus".toList ("pflotran".toList ++ X) = none := rfl


theorem walkVersions_eq_find (p : Dir) :
    walkVersions p = (ancestors p).find? (fun q => pathName q == "versions") := by
  induction p using walkVersions.induct with
  | case1 p h =>
    rw [walkVersions, if_pos h]
    cases p with
    | nil => simp [pathName] at h
    | cons a l =>
      rw [ancestors]
      rw [List.find?_cons_of_pos _ (by simp [h])]
  | case2 p h hpar =>
    rw [walkVersions, if_neg h, if_pos hpar]
    cases p with
    | nil => simp [ancestors]
    | cons a l =>
      rw [ancestors]
      rw [List.find?_cons_of_neg _ (by simp [h])]
      have hl : (a :: l).dropLast = [] := hpar
      rw [hl]
      simp [ancestors]
  | case3 p h hpar ih =>
    rw [walkVersions, if_neg h, if_neg hpar]
    cases p with
    | nil => simp [pathParent] at hpar
    | cons a l =>
      rw [ancestors]
      rw [List.find?_cons_of_neg _ (by simp [h])]
      exact ih

/-! ## Claims -/

/-- Claim C6: the legacy executable name is chosen by comparing
`version.split(".")` against `["1", "9"]` as a lexicographic
list-of-strings comparison: every nonempty version whose split sorts below
`["1", "9"]` resolves to `"pflotran"`; `"1.10"` splits to `["1", "10"]`
and is misclassified as below `["1", "9"]` (string order, not numeric), so
`"1.10"` resolves to the `"pflotran"` executable while `"1.9"` resolves to
`"cirrus"`. -/
theorem legacy_progname_lexicographic :
    (∀ v : String, v.toList ≠ [] →
        pyListLt (splitDot v.toList) ["1".toList, "9".toList] = true →
        prognameOf v = "pflotran")
    ∧ splitDot "1.10".toList = ["1".toList, "10".toList]
    ∧ pyListLt (splitDot "1.10".toList) ["1".toList, "9".toList] = true
    ∧ prognameOf "1.10" = "pflotran"
    ∧ prognameOf "1.9" = "cirrus" := by
  refine ⟨fun v h1 h2 => ?_, by decide, by decide, by decide, by decide⟩
  simp only [prognameOf, ne_eq]
  rw [if_pos ⟨h1, h2⟩]

/-- Witness for C6 at a concrete input: `"1.0"` sorts below `["1", "9"]`
and resolves to `"pflotran"`. -/
theorem legacy_progname_lexicographic_witness : prognameOf "1.0" = "pflotran" :=
  legacy_progname_lexicographic.1 "1.0" (by decide) (by decide)

/-- Claim C4: version resolution tries the resolved versions root first and
the fixed fallback `/prog/cirrus/versions` second, keeps the first
`root/version` whose resolution exists on disk, errors exactly when neither
exists, and in that case `main` exits with the user-facing "not installed"
message. -/
theorem version_search_order_and_fallback :
    (∀ (resolve : Dir → Dir) (fs : Dir → Bool) (vp : Dir) (v : String),
      (fs (resolve (vp ++ [v])) = true →
        findRootdir resolve fs vp v = some (resolve (vp ++ [v])))
      ∧ (fs (resolve (vp ++ [v])) = false →
          fs (resolve (fallbackRoot ++ [v])) = true →
          findRootdir resolve fs vp v = some (resolve (fallbackRoot ++ [v])))
      ∧ (findRootdir resolve fs vp v = none ↔
          fs (resolve (vp ++ [v])) = false ∧
          fs (resolve (fallbackRoot ++ [v])) = false)
      ∧ (∀ r, findRootdir resolve fs vp v = some r → fs r = true))
    ∧ (∀ (a0 : Arguments) (env : Env) (a' : Arguments) (vp : Dir),
      env.fs (env.resolve (env.expanduser a0.input)) = true →
      normalize a0 env = .ok a' →
      get_versions_path env.cirrus_versions_path env.expanduser
        env.scriptDirRaw env.scriptDirResolved = .ok vp →
      findRootdir env.resolve env.fs vp
        (if pyTruthyStr a'.version then a'.version.getD ""
         else default_version env.argv0) = none →
      mainOutcome a0 env =
        .errorExit ("Cirrus version '"
          ++ (if pyTruthyStr a'.version then a'.version.getD ""
              else default_version env.argv0)
          ++ "' is not installed in " ++ pathStr fallbackRoot)) := by
  constructor
  · intro resolve fs vp v
    refine ⟨fun h1 => ?_, fun h1 h2 => ?_, ?_, fun r h => ?_⟩
    · simp [findRootdir, h1]
    · simp [findRootdir, h1, h2]
    · constructor
      · intro h
        by_cases h1 : fs (resolve (vp ++ [v])) = true
        · simp [findRootdir, h1] at h
        · by_cases h2 : fs (resolve (fallbackRoot ++ [v])) = true
          · simp [findRootdir, h1, h2] at h
          · exact ⟨by simpa using h1, by simpa using h2⟩
      · intro ⟨h1, h2⟩
        simp [findRootdir, h1, h2]
    · by_cases h1 : fs (resolve (vp ++ [v])) = true
      · simp [findRootdir, h1] at h
        subst h; exact h1
      · by_cases h2 : fs (resolve (fallbackRoot ++ [v])) = true
        · simp [findRootdir, h1, h2] at h
          simp_all
        · simp [findRootdir, show fs (resolve (vp ++ [v])) = false by simpa using h1,
            show fs (resolve (fallbackRoot ++ [v])) = false by simpa using h2] at h
  · intro a0 env a' vp hfs hnorm hgvp hfind
    simp [mainOutcome, hfs, hnorm, hgvp, hfind]

/-- Witness for C4 at concrete inputs: with a filesystem in which only the
fallback candidate exists, the fallback is selected; with an empty
filesystem the search comes up empty. -/
theorem version_search_order_and_fallback_witness :
    findRootdir id (fun d => d = fallbackRoot ++ ["1.9"]) ["opt", "versions"] "1.9"
      = some (fallbackRoot ++ ["1.9"])
    ∧ findRootdir id (fun _ => false) ["opt", "versions"] "1.9" = none :=
  ⟨(version_search_order_and_fallback.1 id _ _ _).2.1 (by decide) (by decide),
   (version_search_order_and_fallback.1 id (fun _ => false) ["opt", "versions"]
      "1.9").2.2.1.mpr ⟨rfl, rfl⟩⟩

/-- Claim C8: the LSF dispatch writes the rendered script to
`<input-stem>.run` beside the input file and builds the `bsub` argument
list: queue, total task count (machines times tasks-per-machine), the
`<stem>_bsub.LOG` output path beside the input, a job name derived from the
input filename, a resource string joining the minimum-OS-release clause,
the identical-node-type clause and a ptile clause equal to
tasks-per-machine, then the user's extra bsub arguments, and finally a
shell invocation of the written script file. -/
theorem lsf_dispatch_argv (shlex : String → List String) (script : String)
    (a : Arguments) (input_file : Dir) :
    run_bsub shlex script a input_file =
      Outcome.exec
        (some (pathParent input_file
                 ++ [pyStem (pathName input_file) ++ ".run"], script))
        "bsub"
        (["-q", a.queue,
          "-n", toString (a.num_machines * a.num_tasks_per_machine.getD 0),
          "-o", pathStr (pathParent input_file) ++ "/"
                  ++ pyStem (pathName input_file) ++ "_bsub.LOG",
          "-J", "Cirrus_" ++ pathName input_file,
          "-R", String.intercalate " "
                  ["select[rhel >= 8]", "same[type:model]",
                   "span[ptile="
                     ++ toString (a.num_tasks_per_machine.getD 0) ++ "]"]] ++
         shlex (a.bsub_args.getD "") ++
         ["--", "bash",
          pathStr (pathParent input_file
                     ++ [pyStem (pathName input_file) ++ ".run"])]) := rfl

/-- Claim C9: the PBS dispatch builds the `qsub` argument list: queue, a
resource-selection clause `select=M:ncpus=N:mpiprocs=N` with `M` the
machine count and `N` tasks-per-machine, a placement clause that is the
exclusive variant exactly when the exclusivity flag is truthy and the
shared variant otherwise, combined stdout/stderr logging to
`<stem>_qsub.LOG`, a job name, the user's extra qsub arguments, and an
inline shell invocation of the script text. -/
theorem pbs_dispatch_argv (shlex : String → List String) (script : String)
    (a : Arguments) (input_file : Dir) :
    (run_qsub shlex script a input_file =
      Outcome.exec
        (some (pathParent input_file
                 ++ [pyStem (pathName input_file) ++ ".run"], script))
        "qsub"
        (["-q", a.queue,
          "-l", "select=" ++ toString a.num_machines ++ ":ncpus="
                  ++ toString (a.num_tasks_per_machine.getD 0) ++ ":mpiprocs="
                  ++ toString (a.num_tasks_per_machine.getD 0),
          "-l", "place=" ++ (if pyTruthyStr a.exclusive then "scatter:excl"
                             else "scatter:shared"),
          "-j", "oe",
          "-o", pathStr (pathParent input_file) ++ "/"
                  ++ pyStem (pathName input_file) ++ "_qsub.LOG",
          "-N", "Cirrus_" ++ pathName input_file] ++
         shlex (a.qsub_args.getD "") ++
         ["--", "/usr/bin/bash", "-c", script]))
    ∧ ((if pyTruthyStr a.exclusive then "scatter:excl" else "scatter:shared")
         = "scatter:excl" ↔ pyTruthyStr a.exclusive = true) := by
  refine ⟨rfl, ?_⟩
  by_cases h : pyTruthyStr a.exclusive <;> simp [h]

/-- Claim C1: after normalization, an unset tasks-per-machine with a
non-local queue is a fatal user error; unset with the local queue defaults
it to the detected CPU core count (at least 1); more than one machine with
the local queue is a fatal user error; otherwise dispatch selects the local
shell when the effective queue is `"local"`, else `bsub` when the LSF
binary is present, else `qsub` when the PBS binary is present, else exits
fatally with the no-scheduler message. -/
theorem backend_selection_rules (a0 : Arguments) (env : Env) (a2 : Arguments)
    (h2 : ensure_local_on_hpc (env.lsb_djob_rankfile || env.pbs_nodefile)
            (if a0.interactive then { a0 with queue := "local" } else a0) = a2) :
    (a2.num_tasks_per_machine = none → a2.queue ≠ "local" →
      normalize a0 env = .error
        "Must specify -n/--num-tasks-per-machine when running on a non-local queue")
    ∧ (a2.num_tasks_per_machine = none → a2.queue = "local" →
      ∀ a', normalize a0 env = .ok a' →
        a'.num_tasks_per_machine = some (cpuCountOr1 env.cpu_count : Int)
        ∧ 1 ≤ cpuCountOr1 env.cpu_count)
    ∧ (a2.num_machines > 1 → a2.queue = "local" →
      normalize a0 env = .error
        "Must specify -q/--queue when attempting to run on multiple machines with -m/--num-machines")
    ∧ (∀ (script : String) (a : Arguments) (inf : Dir),
        a.print_job_script = false →
        (a.queue = "local" →
          dispatch env script a inf = .exec none "bash" ["-c", script])
        ∧ (a.queue ≠ "local" → env.have_bsub = true →
            (dispatch env script a inf).program = some "bsub")
        ∧ (a.queue ≠ "local" → env.have_bsub = false → env.have_qsub = true →
            (dispatch env script a inf).program = some "qsub")
        ∧ (a.queue ≠ "local" → env.have_bsub = false → env.have_qsub = false →
            dispatch env script a inf =
              .errorExit "No supported job scheduler detected on this machine")) := by
  refine ⟨?_, ?_, ?_, ?_⟩
  · intro hn hq
    unfold normalize
    simp only []
    rw [h2, hn, if_pos hq]
    rfl
  · intro hn hq a' hnorm
    exact ⟨(normalize_ok_inv a0 env a2 a' h2 hnorm).2.2.2.2.1 hn,
           cpuCountOr1_pos _⟩
  · intro hm hq
    unfold normalize
    simp only []
    rw [h2]
    cases hn : a2.num_tasks_per_machine with
    | none =>
      rw [if_neg (by simp [hq])]
      simp only [Except.bind]
      rw [if_pos ⟨hm, hq⟩]
    | some n =>
      simp only [Except.bind]
      rw [if_pos ⟨hm, hq⟩]
  · intro script a inf hp
    refine ⟨fun hq => ?_, fun hq hb => ?_, fun hq hb hqs => ?_, fun hq hb hqs => ?_⟩
    · simp [dispatch, hp, hq]
    · simp [dispatch, hp, hq, hb, run_bsub, Outcome.program]
    · simp [dispatch, hp, hq, hb, hqs, run_qsub, Outcome.program]
    · simp [dispatch, hp, hq, hb, hqs]

/-- Witness for C1 at a concrete input: a non-local queue with
tasks-per-machine unset exits with the fatal message. -/
theorem backend_selection_rules_witness :
    normalize { sampleArgs with queue := "bigmem", num_tasks_per_machine := none }
        sampleEnv
      = .error
        "Must specify -n/--num-tasks-per-machine when running on a non-local queue" :=
  (backend_selection_rules
    { sampleArgs with queue := "bigmem", num_tasks_per_machine := none }
    sampleEnv
    { sampleArgs with queue := "bigmem", num_tasks_per_machine := none }
    rfl).1 rfl (by decide)

/-- Claim C5: with a scheduler-allocation marker variable present, a
non-local queue is overridden to `"local"` (and an unset tasks-per-machine
defaults to 1), and consequently the run never submits a nested `bsub` or
`qsub` job. -/
theorem allocation_marker_prevents_nested_submission (a0 : Arguments)
    (env : Env)
    (hmark : env.lsb_djob_rankfile = true ∨ env.pbs_nodefile = true) :
    (∀ a : Arguments, a.queue ≠ "local" →
      (ensure_local_on_hpc (env.lsb_djob_rankfile || env.pbs_nodefile) a).queue
          = "local"
      ∧ (a.num_tasks_per_machine = none →
          Arguments.num_tasks_per_machine
            (ensure_local_on_hpc (env.lsb_djob_rankfile || env.pbs_nodefile) a)
            = some 1))
    ∧ (mainOutcome a0 env).isSchedulerSubmission = false := by
  have honHpc : (env.lsb_djob_rankfile || env.pbs_nodefile) = true := by
    rcases hmark with h | h <;> simp [h]
  constructor
  · intro a ha
    rw [honHpc]
    exact ⟨ensure_local_queue a, ensure_local_tasks a ha⟩
  · unfold mainOutcome
    by_cases hfs : env.fs (env.resolve (env.expanduser a0.input)) = false
    · simp [hfs, Outcome.isSchedulerSubmission]
    · rw [if_neg (by simp [hfs])]
      cases hnorm : normalize a0 env with
      | error msg => simp [hnorm, Outcome.isSchedulerSubmission]
      | ok a' =>
        have hq : a'.queue = "local" := by
          have hinv := normalize_ok_inv a0 env _ a' rfl hnorm
          rw [hinv.1, honHpc]
          exact ensure_local_queue _
        cases hgvp : get_versions_path env.cirrus_versions_path env.expanduser
            env.scriptDirRaw env.scriptDirResolved with
        | error e => simp [hnorm, hgvp, Outcome.isSchedulerSubmission]
        | ok vp =>
          cases hfind : findRootdir env.resolve env.fs vp
              (if pyTruthyStr a'.version then a'.version.getD ""
               else default_version env.argv0) with
          | none => simp [hnorm, hgvp, hfind, Outcome.isSchedulerSubmission]
          | some rd =>
            by_cases hp : a'.print_job_script
            · simp [hnorm, hgvp, hfind, dispatch, hp,
                Outcome.isSchedulerSubmission]
            · simp [hnorm, hgvp, hfind, dispatch, hp, hq,
                Outcome.isSchedulerSubmission]

/-- Witness for C5 at a concrete input: with the LSF rank-file marker set,
the run is not a scheduler submission. -/
theorem allocation_marker_prevents_nested_submission_witness :
    (mainOutcome { sampleArgs with queue := "bigmem" }
        { sampleEnv with lsb_djob_rankfile := true }).isSchedulerSubmission
      = false :=
  (allocation_marker_prevents_nested_submission
    { sampleArgs with queue := "bigmem" }
    { sampleEnv with lsb_djob_rankfile := true } (Or.inl rfl)).2

/-- Claim C10: the interactive flag forces the queue to `"local"` before
the inside-allocation override is evaluated, and that override fires only
on a non-local queue; so with interactive set, tasks-per-machine unset and
an allocation marker present, tasks-per-machine defaults to the detected
CPU core count (at least 1), not to 1 via the override. -/
theorem interactive_wins_over_allocation_override (a0 : Arguments)
    (env : Env)
    (hint : a0.interactive = true)
    (htasks : a0.num_tasks_per_machine = none)
    (hmark : env.lsb_djob_rankfile = true ∨ env.pbs_nodefile = true) :
    ensure_local_on_hpc (env.lsb_djob_rankfile || env.pbs_nodefile)
        { a0 with queue := "local" } = { a0 with queue := "local" }
    ∧ (∀ a', normalize a0 env = .ok a' →
        a'.num_tasks_per_machine = some (cpuCountOr1 env.cpu_count : Int))
    ∧ 1 ≤ cpuCountOr1 env.cpu_count := by
  have h1 : ensure_local_on_hpc (env.lsb_djob_rankfile || env.pbs_nodefile)
      { a0 with queue := "local" } = { a0 with queue := "local" } := by
    unfold ensure_local_on_hpc
    exact if_neg (fun hc => hc.1 rfl)
  refine ⟨h1, ?_, cpuCountOr1_pos _⟩
  intro a' hnorm
  have h2 : ensure_local_on_hpc (env.lsb_djob_rankfile || env.pbs_nodefile)
      (if a0.interactive then { a0 with queue := "local" } else a0)
      = { a0 with queue := "local" } := by
    rw [if_pos hint]
    exact h1
  exact (normalize_ok_inv a0 env _ a' h2 hnorm).2.2.2.2.1 htasks

/-- Witness for C10 at a concrete input: interactive run inside a PBS
allocation with 4 detected CPUs defaults tasks-per-machine to 4, not 1. -/
theorem interactive_wins_over_allocation_override_witness :
    normalize
        { sampleArgs with interactive := true, num_tasks_per_machine := none }
        { sampleEnv with pbs_nodefile := true }
      = .ok ({ sampleArgs with
               interactive := true
               num_tasks_per_machine := some 4 } : Arguments)
    ∧ ({ sampleArgs with
         interactive := true
         num_tasks_per_machine := some 4 } : Arguments).num_tasks_per_machine
        = some 4 := by
  have hn : normalize
      { sampleArgs with interactive := true, num_tasks_per_machine := none }
      { sampleEnv with pbs_nodefile := true }
    = .ok ({ sampleArgs with
             interactive := true
             num_tasks_per_machine := some 4 } : Arguments) := by rfl
  exact ⟨hn,
    (interactive_wins_over_allocation_override
      { sampleArgs with interactive := true, num_tasks_per_machine := none }
      { sampleEnv with pbs_nodefile := true } rfl rfl (Or.inr rfl)).2.1 _ hn⟩

/-- Claim C7: job-script rendering is a deterministic pure function of its
inputs — equal inputs give byte-identical text — and a run with
`--print-job-script` never replaces the process image: on the successful
path it prints the rendered script. -/
theorem print_job_script_is_pure (a0 : Arguments) (env : Env) :
    (∀ i1 i2 : ScriptInputs, i1 = i2 → renderScript i1 = renderScript i2)
    ∧ (a0.print_job_script = true → (mainOutcome a0 env).isExec = false)
    ∧ (a0.print_job_script = true →
       ∀ a', normalize a0 env = .ok a' →
       ∀ vp, get_versions_path env.cirrus_versions_path env.expanduser
               env.scriptDirRaw env.scriptDirResolved = .ok vp →
       ∀ rd, findRootdir env.resolve env.fs vp
               (if pyTruthyStr a'.version then a'.version.getD ""
                else default_version env.argv0) = some rd →
       env.fs (env.resolve (env.expanduser a0.input)) = true →
       ∃ s, mainOutcome a0 env = .printed s) := by
  refine ⟨fun i1 i2 h => by rw [h], ?_, ?_⟩
  · intro hp
    unfold mainOutcome
    by_cases hfs : env.fs (env.resolve (env.expanduser a0.input)) = false
    · simp [hfs, Outcome.isExec]
    · rw [if_neg (by simp [hfs])]
      cases hnorm : normalize a0 env with
      | error msg => simp [hnorm, Outcome.isExec]
      | ok a' =>
        have hp' : a'.print_job_script = true := by
          have hinv := normalize_ok_inv a0 env _ a' rfl hnorm
          rw [hinv.2.1, ensure_local_print]
          by_cases hi : a0.interactive <;> simp [hi, hp]
        cases hgvp : get_versions_path env.cirrus_versions_path env.expanduser
            env.scriptDirRaw env.scriptDirResolved with
        | error e => simp [hnorm, hgvp, Outcome.isExec]
        | ok vp =>
          cases hfind : findRootdir env.resolve env.fs vp
              (if pyTruthyStr a'.version then a'.version.getD ""
               else default_version env.argv0) with
          | none => simp [hnorm, hgvp, hfind, Outcome.isExec]
          | some rd => simp [hnorm, hgvp, hfind, dispatch, hp', Outcome.isExec]
  · intro hp a' hnorm vp hgvp rd hfind hfs
    have hp' : a'.print_job_script = true := by
      have hinv := normalize_ok_inv a0 env _ a' rfl hnorm
      rw [hinv.2.1, ensure_local_print]
      by_cases hi : a0.interactive <;> simp [hi, hp]
    unfold mainOutcome
    rw [if_neg (by simp [hfs])]
    simp only [hnorm, hgvp, hfind, dispatch, hp', if_true]
    exact ⟨_, rfl⟩

/-- Witness for C7 at a concrete input: with the print flag set, the
outcome does not replace the process image. -/
theorem print_job_script_is_pure_witness :
    (mainOutcome { sampleArgs with print_job_script := true } sampleEnv).isExec
      = false :=
  (print_job_script_is_pure { sampleArgs with print_job_script := true }
    sampleEnv).2.1 rfl


/-- Claim C3: with the override environment variable set, the versions root
is its expanded value verbatim with no existence check (the function never
consults the filesystem at all); otherwise the walk from the program's
resolved directory returns the first directory on the upward chain whose
name is literally "versions"; and when it fails, the error carries the
original, pre-resolution start path exactly. -/
theorem versions_root_resolution :
    (∀ (s : String) (expanduser : String → Dir) (raw res : Dir),
      get_versions_path (some s) expanduser raw res = .ok (expanduser s))
    ∧ (∀ res : Dir,
        walkVersions res
          = (ancestors res).find? (fun q => pathName q == "versions"))
    ∧ (∀ (expanduser : String → Dir) (raw res d : Dir),
        walkVersions res = some d →
        get_versions_path none expanduser raw res = .ok d)
    ∧ (∀ (expanduser : String → Dir) (raw res e : Dir),
        get_versions_path none expanduser raw res = .error e → e = raw) := by
  refine ⟨fun s exp raw res => rfl, walkVersions_eq_find, ?_, ?_⟩
  · intro exp raw res d h
    simp [get_versions_path, h]
  · intro exp raw res e h
    unfold get_versions_path at h
    cases hw : walkVersions res with
    | none =>
      rw [hw] at h
      simp only [Except.error.injEq] at h
      exact h.symm
    | some d =>
      rw [hw] at h
      exact absurd h (by simp)

/-- Witness for C3 at a concrete input, mirroring the repository test: the
walk from `cirrus/versions/.store/bin` finds `cirrus/versions`. -/
theorem versions_root_resolution_witness :
    get_versions_path none (fun _ => []) ["cirrus", "bin"]
        ["cirrus", "versions", ".store", "bin"]
      = .ok ["cirrus", "versions"] :=
  versions_root_resolution.2.2.1 _ _ _ _
    (by simp [walkVersions, pathName, pathParent])

/-- Claim C2: for script basenames of the shape
`run<name><digits-with-dots>?` with `name` one of the two accepted names,
`default_version` returns the captured digit sequence when present, else
"1.8" when the name is "pflotran", else "stable"; in particular
`runpflotran1.8.12` gives `1.8.12`, `runpflotran` gives `1.8`, `runcirrus`
gives `stable`, and `runpflotran1.8-openpbs-rh8` gives `1.8`. -/
theorem default_version_pattern :
    (∀ (nm : String) (runs : List (List Char)) (tail : List Char),
      (nm = "cirrus" ∨ nm = "pflotran") →
      runs ≠ [] →
      (∀ r ∈ runs, r ≠ [] ∧ ∀ c ∈ r, c.isDigit = true) →
      noCapExtend tail = true →
      default_version
          (String.mk ("run".toList ++ nm.toList ++ dottedRuns runs ++ tail))
        = String.mk (dottedRuns runs))
    ∧ (∀ (nm : String) (tail : List Char),
      (nm = "cirrus" ∨ nm = "pflotran") →
      headNotDigit tail = true →
      default_version (String.mk ("run".toList ++ nm.toList ++ tail))
        = (if nm = "pflotran" then "1.8" else "stable"))
    ∧ default_version "runpflotran1.8.12" = "1.8.12"
    ∧ default_version "runpflotran" = "1.8"
    ∧ default_version "runcirrus" = "stable"
    ∧ default_version "runpflotran1.8-openpbs-rh8" = "1.8" := by
  refine ⟨?_, ?_, by decide, by decide, by decide, by decide⟩
  · rintro nm runs tail (rfl | rfl) hruns hr ht
    · have hcap := versionCapture_dotted runs tail hruns hr ht
      have e0 : (String.mk ((("run".toList ++ "cirrus".toList)
            ++ dottedRuns runs) ++ tail)).toList
          = "run".toList ++ ("cirrus".toList ++ (dottedRuns runs ++ tail)) := by
        show (("run".toList ++ "cirrus".toList) ++ dottedRuns runs) ++ tail = _
        simp [List.append_assoc]
      simp only [default_version, e0, stripLit_append, hcap]
    · have hcap := versionCapture_dotted runs tail hruns hr ht
      have e0 : (String.mk ((("run".toList ++ "pflotran".toList)
            ++ dottedRuns runs) ++ tail)).toList
          = "run".toList ++ ("pflotran".toList ++ (dottedRuns runs ++ tail)) := by
        show (("run".toList ++ "pflotran".toList) ++ dottedRuns runs) ++ tail = _
        simp [List.append_assoc]
      simp only [default_version, e0, stripLit_append,
        stripLit_cirrus_pflotran, hcap]
  · rintro nm tail (rfl | rfl) ht
    · have hcap := versionCapture_nodigit tail ht
      have e0 : (String.mk (("run".toList ++ "cirrus".toList) ++ tail)).toList
          = "run".toList ++ ("cirrus".toList ++ tail) := by
        show ("run".toList ++ "cirrus".toList) ++ tail = _
        simp [List.append_assoc]
      simp only [default_version, e0, stripLit_append, hcap]
      rw [if_neg (by decide)]
    · have hcap := versionCapture_nodigit tail ht
      have e0 : (String.mk (("run".toList ++ "pflotran".toList) ++ tail)).toList
          = "run".toList ++ ("pflotran".toList ++ tail) := by
        show ("run".toList ++ "pflotran".toList) ++ tail = _
        simp [List.append_assoc]
      simp only [default_version, e0, stripLit_append,
        stripLit_cirrus_pflotran, hcap]
      simp

/-- Witness for C2 at a concrete input: the pattern instance
`run` + `pflotran` + `1.8` + `-openpbs-rh8` yields the captured `1.8`. -/
theorem default_version_pattern_witness :
    default_version (String.mk ("run".toList ++ "pflotran".toList
        ++ dottedRuns [['1'], ['8']] ++ "-openpbs-rh8".toList))
      = String.mk (dottedRuns [['1'], ['8']]) :=
  default_version_pattern.1 "pflotran" [['1'], ['8']] "-openpbs-rh8".toList
    (Or.inr rfl) (by decide) (by decide) (by decide)

end Runcirrus
